import Mathlib
set_option maxRecDepth 10000

/-!
Shallow embedding of `src/script.js` (a client-side palette renderer).

JavaScript numbers are modelled as rationals (`ℚ`); every operation used by
the script on numbers is exact except `Math.round`, `%` and integer display,
which are modelled explicitly (`jsRound`, `jsMod`, `natToHex`).  JavaScript
`NaN` (produced by `parseInt` on non-digit input) is modelled by `Option`:
`none` is NaN.  Thrown exceptions are modelled by `Except`.  DOM state is
modelled as the list of tile descriptors mounted under the `#palette` node.
-/

deriving instance DecidableEq for Except

namespace PaletteScript

/-! ### JavaScript numeric primitives -/

/-- Truncation toward zero, as JavaScript coerces in `%`'s quotient. -/
def jsTrunc (q : ℚ) : ℤ := if 0 ≤ q then ⌊q⌋ else ⌈q⌉

/-- JavaScript `%` on numbers: remainder with the sign of the dividend. -/
def jsMod (a b : ℚ) : ℚ := a - b * (jsTrunc (a / b) : ℚ)

/-- JavaScript `Math.round`: round half toward +∞. -/
def jsRound (q : ℚ) : ℤ := ⌊q + 1 / 2⌋

/-! ### JavaScript string primitives -/

/-- Hexadecimal value of a character, as `parseInt(·, 16)` reads digits
(`0`-`9`, `a`-`f`, `A`-`F`); `none` for a non-digit. -/
def hexDigitVal (c : Char) : Option ℕ :=
  let n := c.toNat
  if 48 ≤ n ∧ n ≤ 57 then some (n - 48)
  else if 97 ≤ n ∧ n ≤ 102 then some (n - 97 + 10)
  else if 65 ≤ n ∧ n ≤ 70 then some (n - 65 + 10)
  else none

def isHexDigitChar (c : Char) : Bool := (hexDigitVal c).isSome

/-- JavaScript `String.prototype.trim` on a character list. -/
def jsTrimL (cs : List Char) : List Char :=
  ((cs.dropWhile Char.isWhitespace).reverse.dropWhile Char.isWhitespace).reverse

/-- JavaScript `parseInt(s, 16)`: skip leading whitespace, optional sign,
optional `0x`/`0X`, then the longest run of hex digits; `none` (NaN) if that
run is empty. -/
def jsParseInt16L (cs : List Char) : Option ℤ :=
  let cs1 := cs.dropWhile Char.isWhitespace
  let neg : Bool := cs1.head? = some '-'
  let cs2 := if cs1.head? = some '-' ∨ cs1.head? = some '+' then cs1.tail else cs1
  let cs3 := if cs2.take 2 = ['0', 'x'] ∨ cs2.take 2 = ['0', 'X'] then cs2.drop 2 else cs2
  let digits := cs3.takeWhile isHexDigitChar
  if digits = [] then none
  else
    let n : ℤ := digits.foldl (fun acc c => acc * 16 + ((hexDigitVal c).getD 0 : ℤ)) 0
    some (if neg then -n else n)

/-- Lowercase hexadecimal digit character, as `Number.prototype.toString(16)`. -/
def hexDigitChar (n : ℕ) : Char :=
  if n < 10 then Char.ofNat (48 + n) else Char.ofNat (97 + (n - 10))

/-- Fuel-based digit expansion for `toString(16)` on a natural number. -/
def natToHexAux : ℕ → ℕ → List Char
  | 0, _ => []
  | fuel + 1, n =>
    if n < 16 then [hexDigitChar n]
    else natToHexAux fuel (n / 16) ++ [hexDigitChar (n % 16)]

/-- `n.toString(16)` for a natural number. -/
def natToHex (n : ℕ) : String := String.mk (natToHexAux (n + 1) n)

/-- `n.toString(16)` for an integer (negative values print with `-`). -/
def jsIntToHexString (n : ℤ) : String :=
  if n < 0 then "-" ++ natToHex n.natAbs else natToHex n.toNat

/-- JavaScript `String.prototype.padStart(len, c)`. -/
def jsPadStart (s : String) (len : ℕ) (c : Char) : String :=
  String.mk (List.replicate (len - s.length) c ++ s.toList)

/-- The inner `toHex` of `hslToHex`: `n.toString(16).padStart(2, "0")`. -/
def toHex2 (n : ℤ) : String := jsPadStart (jsIntToHexString n) 2 '0'

/-! ### Configuration constants (script.js lines 6-25) -/

def TILE_COUNT : ℕ := 60

def START_HEX : String := "#3a3b23"
def MID_HEX : String := "#736a46"
def END_HEX : String := "#d4c7a6"

/-- `Math.round((TILE_COUNT - 1) / 2)`, used as a list index. -/
def MID_INDEX : ℕ := (jsRound (((TILE_COUNT : ℚ) - 1) / 2)).toNat

def INTERESTS : List String :=
  ["Architecture", "Photography", "3D visualisation", "Fashion",
   "Sport", "Music", "Graphic design", "Interior design"]

/-! ### Color engine (script.js lines 27-143) -/

/-- The six chroma sector branches of `hslToHex` (script.js lines 40-58);
when `hh` lies in no sector the channels keep their `0` initialisation. -/
def sector (hh c x : ℚ) : ℚ × ℚ × ℚ :=
  if 0 ≤ hh ∧ hh < 1 then (c, x, 0)
  else if 1 ≤ hh ∧ hh < 2 then (x, c, 0)
  else if 2 ≤ hh ∧ hh < 3 then (0, c, x)
  else if 3 ≤ hh ∧ hh < 4 then (0, x, c)
  else if 4 ≤ hh ∧ hh < 5 then (x, 0, c)
  else if 5 ≤ hh ∧ hh < 6 then (c, 0, x)
  else (0, 0, 0)

/-- The three rounded channel values computed inside `hslToHex`. -/
def hslChannels (h s l : ℚ) : ℤ × ℤ × ℤ :=
  let s := s / 100
  let l := l / 100
  let c := (1 - |2 * l - 1|) * s
  let hh := h / 60
  let x := c * (1 - |jsMod hh 2 - 1|)
  let rgb := sector hh c x
  let m := l - c / 2
  (jsRound ((rgb.1 + m) * 255), jsRound ((rgb.2.1 + m) * 255), jsRound ((rgb.2.2 + m) * 255))

/-- `hslToHex(h, s, l)` (script.js lines 28-67). -/
def hslToHex (h s l : ℚ) : String :=
  let ch := hslChannels h s l
  "#" ++ toHex2 ch.1 ++ toHex2 ch.2.1 ++ toHex2 ch.2.2

/-- `hex.replace(/^#/, "").trim()` as a character list. -/
def cleanOf (hex : String) : List Char :=
  jsTrimL (if hex.toList.head? = some '#' then hex.toList.tail else hex.toList)

/-- `hexToRgb(hex)` (script.js lines 70-77).  `Except.error` models the
thrown `Error`; each channel is `Option ℤ` because `parseInt` yields NaN
(`none`) on non-digit input — the code checks only the cleaned length. -/
def hexToRgb (hex : String) : Except String (Option ℤ × Option ℤ × Option ℤ) :=
  let clean := cleanOf hex
  if clean.length ≠ 6 then .error ("Expected 6-digit hex, got: " ++ hex)
  else .ok (jsParseInt16L (clean.take 2),
            jsParseInt16L ((clean.drop 2).take 2),
            jsParseInt16L ((clean.drop 4).take 2))

/-- Adapter for call sites that destructure `hexToRgb`'s result as plain
numbers: `none` covers the throwing and NaN paths, which never occur for
the anchor constants the script passes in. -/
def hexToRgbQ (hex : String) : Option (ℚ × ℚ × ℚ) :=
  match hexToRgb hex with
  | .ok (some r, some g, some b) => some ((r : ℚ), (g : ℚ), (b : ℚ))
  | _ => none

/-- `rgbToHsl(r, g, b)` (script.js lines 80-106). -/
def rgbToHsl (r g b : ℚ) : ℚ × ℚ × ℚ :=
  let r := r / 255
  let g := g / 255
  let b := b / 255
  let mx := max r (max g b)
  let mn := min r (min g b)
  let d := mx - mn
  let h :=
    if d ≠ 0 then
      let h0 :=
        if mx = r then jsMod ((g - b) / d) 6
        else if mx = g then (b - r) / d + 2
        else (r - g) / d + 4
      let h1 := h0 * 60
      if h1 < 0 then h1 + 360 else h1
    else 0
  let l := (mx + mn) / 2
  let s := if d = 0 then 0 else d / (1 - |2 * l - 1|)
  (h, s * 100, l * 100)

/-- `lerp(a, b, t)` (script.js lines 108-110). -/
def lerp (a b t : ℚ) : ℚ := a + (b - a) * t

/-- `lerpHue(h1, h2, t)` (script.js lines 113-116). -/
def lerpHue (h1 h2 t : ℚ) : ℚ :=
  jsMod (h1 + (jsMod (h2 - h1 + 540) 360 - 180) * t + 360) 360

/-- `makeGreen(i, total)` (script.js lines 122-143); the spec calls it
`colorAt`.  `none` models a propagated exception from `hexToRgb`, which
cannot happen for the anchor constants. -/
def makeGreen (i total : ℕ) : Option String :=
  let t : ℚ := if total ≤ 1 then 0 else (i : ℚ) / ((total : ℚ) - 1)
  let a : ℕ := if t < 1 / 2 then 0 else 1
  let localT : ℚ := if t < 1 / 2 then t / (1 / 2) else (t - 1 / 2) / (1 / 2)
  let fromHex := if a = 0 then START_HEX else MID_HEX
  let toHexStr := if a = 0 then MID_HEX else END_HEX
  match hexToRgbQ fromHex, hexToRgbQ toHexStr with
  | some (fr, fg, fb), some (tr, tg, tb) =>
    let fromHsl := rgbToHsl fr fg fb
    let toHsl := rgbToHsl tr tg tb
    let h := lerpHue fromHsl.1 toHsl.1 localT
    let s := lerp fromHsl.2.1 toHsl.2.1 localT
    let l := lerp fromHsl.2.2 toHsl.2.2 localT
    some (hslToHex h s l)
  | _, _ => none

/-- The hex → RGB → HSL → hex composition, channel level. -/
def roundTripChannels (r g b : ℚ) : ℤ × ℤ × ℤ :=
  hslChannels (rgbToHsl r g b).1 (rgbToHsl r g b).2.1 (rgbToHsl r g b).2.2

/-- The hex → RGB → HSL → hex composition, string level. -/
def roundTripHex (r g b : ℚ) : String :=
  hslToHex (rgbToHsl r g b).1 (rgbToHsl r g b).2.1 (rgbToHsl r g b).2.2

/-! ### Grid renderer (script.js lines 145-204) -/

/-- `interestsIndex` after the collision shift (script.js lines 152-153);
`r` is the value of `Math.floor(Math.random() * TILE_COUNT)`. -/
def interestsIndexOf (r : ℕ) : ℕ :=
  if r = MID_INDEX then (r + 1) % TILE_COUNT else r

/-- One rendered swatch: background color, accessible label, the two
special-case marks, and the visible label text. -/
structure Tile where
  color : Option String
  ariaLabel : Option String
  hasEye : Bool
  hasInterests : Bool
  label : Option String
  deriving DecidableEq, Repr

/-- The tile built at loop index `i` (script.js lines 155-198). -/
def mkTile (interestsIndex i : ℕ) : Tile :=
  let color := if i = MID_INDEX then some MID_HEX else makeGreen i TILE_COUNT
  { color := color
    ariaLabel := color.map (fun c => "Color " ++ Nat.repr (i + 1) ++ ": " ++ c)
    hasEye := i == MID_INDEX
    hasInterests := i == interestsIndex
    label := color.map (fun c =>
      "#" ++ jsPadStart (Nat.repr (i + 1)) 3 '0' ++ "  " ++ c) }

/-- The full tile list built by one run of `buildPalette`. -/
def buildTiles (r : ℕ) : List Tile :=
  (List.range TILE_COUNT).map (mkTile (interestsIndexOf r))

/-- `buildPalette()` as a document transformer: the document is the mount
point's child list, `none` when `document.getElementById("palette")` is
null.  An absent mount returns early; otherwise `replaceChildren`
installs the freshly built tiles. -/
def renderDoc : Option (List Tile) → ℕ → Option (List Tile)
  | none, _ => none
  | some _, r => some (buildTiles r)

/-- The visible label ordinals, in render order. -/
def ordinalLabels : List String :=
  (List.range TILE_COUNT).map (fun i => jsPadStart (Nat.repr (i + 1)) 3 '0')

/-! ### Basic facts about the numeric primitives -/

theorem jsTrunc_eq_zero {q : ℚ} (h1 : -1 < q) (h2 : q < 1) : jsTrunc q = 0 := by
  unfold jsTrunc
  split_ifs with h
  · exact Int.floor_eq_zero_iff.mpr ⟨h, h2⟩
  · exact Int.ceil_eq_zero_iff.mpr ⟨h1, le_of_lt (lt_of_not_ge h)⟩

theorem jsMod_eq_self {a b : ℚ} (hb : 0 < b) (h1 : -b < a) (h2 : a < b) :
    jsMod a b = a := by
  unfold jsMod
  rw [jsTrunc_eq_zero (by rw [lt_div_iff₀ hb]; linarith) ((div_lt_one hb).mpr h2)]
  ring

theorem jsMod_two_shift2 {a : ℚ} (h1 : 2 ≤ a) (h2 : a < 4) : jsMod a 2 = a - 2 := by
  unfold jsMod jsTrunc
  rw [if_pos (by positivity)]
  have hf : ⌊a / 2⌋ = 1 := by
    rw [Int.floor_eq_iff]
    constructor
    · push_cast
      rw [le_div_iff₀ (by norm_num : (0:ℚ) < 2)]; linarith
    · push_cast
      rw [div_lt_iff₀ (by norm_num : (0:ℚ) < 2)]; linarith
  rw [hf]
  push_cast
  ring

theorem jsMod_two_shift4 {a : ℚ} (h1 : 4 ≤ a) (h2 : a < 6) : jsMod a 2 = a - 4 := by
  unfold jsMod jsTrunc
  rw [if_pos (by positivity)]
  have hf : ⌊a / 2⌋ = 2 := by
    rw [Int.floor_eq_iff]
    constructor
    · push_cast
      rw [le_div_iff₀ (by norm_num : (0:ℚ) < 2)]; linarith
    · push_cast
      rw [div_lt_iff₀ (by norm_num : (0:ℚ) < 2)]; linarith
  rw [hf]
  push_cast
  ring

theorem jsMod_two_mem {a : ℚ} (h : 0 ≤ a) : 0 ≤ jsMod a 2 ∧ jsMod a 2 < 2 := by
  unfold jsMod jsTrunc
  rw [if_pos (by positivity)]
  have h1 : (⌊a / 2⌋ : ℚ) ≤ a / 2 := Int.floor_le _
  have h2 : a / 2 < ⌊a / 2⌋ + 1 := Int.lt_floor_add_one _
  constructor <;> linarith

theorem jsRound_intCast (n : ℤ) : jsRound (n : ℚ) = n := by
  unfold jsRound
  rw [Int.floor_int_add]
  norm_num

theorem jsRound_natCast (n : ℕ) : jsRound (n : ℚ) = (n : ℤ) := by
  have := jsRound_intCast (n : ℤ)
  push_cast at this
  exact this

theorem jsRound_nonneg {q : ℚ} (h : 0 ≤ q) : 0 ≤ jsRound q :=
  Int.le_floor.mpr (by push_cast; linarith)

theorem jsRound_le_255 {q : ℚ} (h : q ≤ 255) : jsRound q ≤ 255 := by
  have : jsRound q < 256 := Int.floor_lt.mpr (by push_cast; linarith)
  omega

theorem MID_INDEX_eq : MID_INDEX = 30 := by with_unfolding_all decide

/-! ### Sector branch evaluation -/

theorem sector_eq0 {hh : ℚ} (c x : ℚ) (h0 : 0 ≤ hh) (h1 : hh < 1) :
    sector hh c x = (c, x, 0) := by
  unfold sector
  rw [if_pos ⟨h0, h1⟩]

theorem sector_eq1 {hh : ℚ} (c x : ℚ) (h0 : 1 ≤ hh) (h1 : hh < 2) :
    sector hh c x = (x, c, 0) := by
  unfold sector
  rw [if_neg (by rintro ⟨_, h⟩; linarith), if_pos ⟨h0, h1⟩]

theorem sector_eq2 {hh : ℚ} (c x : ℚ) (h0 : 2 ≤ hh) (h1 : hh < 3) :
    sector hh c x = (0, c, x) := by
  unfold sector
  rw [if_neg (by rintro ⟨_, h⟩; linarith), if_neg (by rintro ⟨_, h⟩; linarith),
    if_pos ⟨h0, h1⟩]

theorem sector_eq3 {hh : ℚ} (c x : ℚ) (h0 : 3 ≤ hh) (h1 : hh < 4) :
    sector hh c x = (0, x, c) := by
  unfold sector
  rw [if_neg (by rintro ⟨_, h⟩; linarith), if_neg (by rintro ⟨_, h⟩; linarith),
    if_neg (by rintro ⟨_, h⟩; linarith), if_pos ⟨h0, h1⟩]

theorem sector_eq4 {hh : ℚ} (c x : ℚ) (h0 : 4 ≤ hh) (h1 : hh < 5) :
    sector hh c x = (x, 0, c) := by
  unfold sector
  rw [if_neg (by rintro ⟨_, h⟩; linarith), if_neg (by rintro ⟨_, h⟩; linarith),
    if_neg (by rintro ⟨_, h⟩; linarith), if_neg (by rintro ⟨_, h⟩; linarith),
    if_pos ⟨h0, h1⟩]

theorem sector_eq5 {hh : ℚ} (c x : ℚ) (h0 : 5 ≤ hh) (h1 : hh < 6) :
    sector hh c x = (c, 0, x) := by
  unfold sector
  rw [if_neg (by rintro ⟨_, h⟩; linarith), if_neg (by rintro ⟨_, h⟩; linarith),
    if_neg (by rintro ⟨_, h⟩; linarith), if_neg (by rintro ⟨_, h⟩; linarith),
    if_neg (by rintro ⟨_, h⟩; linarith), if_pos ⟨h0, h1⟩]

theorem sector_eq6 {hh : ℚ} (c x : ℚ) (h0 : 6 ≤ hh) :
    sector hh c x = (0, 0, 0) := by
  unfold sector
  rw [if_neg (by rintro ⟨_, h⟩; linarith), if_neg (by rintro ⟨_, h⟩; linarith),
    if_neg (by rintro ⟨_, h⟩; linarith), if_neg (by rintro ⟨_, h⟩; linarith),
    if_neg (by rintro ⟨_, h⟩; linarith), if_neg (by rintro ⟨_, h⟩; linarith)]

/-! ### Helper facts about the renderer -/

theorem mkTile_color (j i : ℕ) :
    (mkTile j i).color = if i = MID_INDEX then some MID_HEX else makeGreen i TILE_COUNT := rfl

theorem mkTile_label (j i : ℕ) :
    (mkTile j i).label = (mkTile j i).color.map (fun c =>
      "#" ++ jsPadStart (Nat.repr (i + 1)) 3 '0' ++ "  " ++ c) := rfl

theorem tileColor_isSome :
    ∀ i, i < TILE_COUNT →
      (if i = MID_INDEX then some MID_HEX else makeGreen i TILE_COUNT).isSome = true := by
  with_unfolding_all decide

theorem ordinalLabels_eq :
    ordinalLabels =
      ["001", "002", "003", "004", "005", "006", "007", "008", "009", "010",
       "011", "012", "013", "014", "015", "016", "017", "018", "019", "020",
       "021", "022", "023", "024", "025", "026", "027", "028", "029", "030",
       "031", "032", "033", "034", "035", "036", "037", "038", "039", "040",
       "041", "042", "043", "044", "045", "046", "047", "048", "049", "050",
       "051", "052", "053", "054", "055", "056", "057", "058", "059", "060"] := by
  with_unfolding_all decide

/-! ### Claim C1 -/

/-- Claim C1 counterexample: at the configured count `N = 60` the midpoint
index is `30`, but `colorAt(30, 60)` (`makeGreen`) does *not* return the mid
anchor `#736a46` exactly — it returns `#756c47`, because `t = 30/59 > 0.5`
interpolates slightly past the mid anchor. -/
theorem colorAt_mid_counterexample :
    MID_INDEX = 30 ∧ makeGreen 30 TILE_COUNT = some "#756c47" ∧
      makeGreen 30 TILE_COUNT ≠ some MID_HEX := by
  refine ⟨?_, ?_, ?_⟩ <;> with_unfolding_all decide

/-- Claim C1 (amended): `colorAt(0, N)` is exactly the start anchor and
`colorAt(N-1, N)` exactly the end anchor, but `colorAt(MID_INDEX, N)` is
`#756c47`, not the mid anchor; the mid anchor appears in the grid only
because `buildPalette` bypasses `colorAt` at the midpoint. -/
theorem colorAt_anchor_values :
    makeGreen 0 TILE_COUNT = some START_HEX ∧
      makeGreen (TILE_COUNT - 1) TILE_COUNT = some END_HEX ∧
      makeGreen MID_INDEX TILE_COUNT = some "#756c47" ∧
      makeGreen MID_INDEX TILE_COUNT ≠ some MID_HEX := by
  refine ⟨?_, ?_, ?_, ?_⟩ <;> with_unfolding_all decide

/-! ### Claim C2 -/

/-- Claim C2 counterexample: `"zzzzzz"` cleans to a 6-character string that
is *not* hexadecimal, yet `hexToRgb` succeeds (with NaN channels) instead of
failing with a format error — the code only checks the cleaned length. -/
theorem hexToRgb_counterexample :
    hexToRgb "zzzzzz" = .ok (none, none, none) := by
  with_unfolding_all decide

/-- Claim C2 (amended): `hexToRgb` succeeds exactly for those inputs whose
cleaned form — one leading `#` removed (before trimming), then
whitespace-trimmed — has exactly 6 characters; hex-validity of the
characters is not checked (non-hex characters give NaN channels without an
error).  `hexToRgb("bad")` fails with the format error, and parsing is
case- and prefix-insensitive: `hexToRgb("#AABBCC") = hexToRgb("aabbcc")`. -/
theorem hexToRgb_success_iff :
    (∀ s : String, (∃ v, hexToRgb s = .ok v) ↔ (cleanOf s).length = 6) ∧
      hexToRgb "bad" = .error "Expected 6-digit hex, got: bad" ∧
      hexToRgb "#AABBCC" = hexToRgb "aabbcc" ∧
      hexToRgb "#AABBCC" = .ok (some 170, some 187, some 204) := by
  refine ⟨fun s => ?_, ?_, ?_, ?_⟩
  · constructor
    · rintro ⟨v, hv⟩
      by_contra h
      rw [hexToRgb, if_pos h] at hv
      exact Except.noConfusion hv
    · intro h
      exact ⟨_, by rw [hexToRgb, if_neg (not_ne_iff.mpr h)]⟩
  · with_unfolding_all decide
  · with_unfolding_all decide
  · with_unfolding_all decide

/-! ### Claim C4 -/

/-- Claim C4: for every random draw `r` in `[0, TILE_COUNT)`, the final
interests index is `r` unless `r` is the midpoint index, in which case it is
`(r + 1) % TILE_COUNT`; in every case it differs from the midpoint index. -/
theorem interestsIndex_spec (r : ℕ) (hr : r < TILE_COUNT) :
    (r ≠ MID_INDEX → interestsIndexOf r = r) ∧
      (r = MID_INDEX → interestsIndexOf r = (r + 1) % TILE_COUNT) ∧
      interestsIndexOf r ≠ MID_INDEX := by
  refine ⟨fun h => by simp [interestsIndexOf, h], fun h => by simp [interestsIndexOf, h], ?_⟩
  by_cases h : r = MID_INDEX
  · subst h
    simp only [interestsIndexOf, if_pos rfl, MID_INDEX_eq, TILE_COUNT]
    decide
  · simp only [interestsIndexOf, if_neg h]
    exact h

theorem interestsIndex_spec_witness :
    PaletteScript.interestsIndexOf 30 ≠ PaletteScript.MID_INDEX ∧
      PaletteScript.interestsIndexOf 7 = 7 :=
  ⟨(interestsIndex_spec 30 (by decide)).2.2,
   (interestsIndex_spec 7 (by decide)).1 (by rw [MID_INDEX_eq]; decide)⟩

/-! ### Claim C5 -/

/-- Claim C5: whatever the random draw, the rendered tile at the midpoint
index `round((TILE_COUNT-1)/2) = 30` has exactly the mid anchor `#736a46`
as its background color — `buildPalette` bypasses the interpolation there. -/
theorem midTile_exact_color (r : ℕ) (_hr : r < TILE_COUNT) :
    ∃ tile : Tile, (buildTiles r)[MID_INDEX]? = some tile ∧ tile.color = some MID_HEX := by
  refine ⟨mkTile (interestsIndexOf r) MID_INDEX, ?_, ?_⟩
  · have h30 : MID_INDEX < TILE_COUNT := by rw [MID_INDEX_eq]; decide
    simp [buildTiles, List.getElem?_map, List.getElem?_range h30]
  · simp [mkTile_color]

theorem midTile_exact_color_witness :
    ∃ tile : PaletteScript.Tile,
      (PaletteScript.buildTiles 0)[PaletteScript.MID_INDEX]? = some tile ∧
        tile.color = some PaletteScript.MID_HEX :=
  midTile_exact_color 0 (by decide)

/-! ### Claim C6 -/

/-- Claim C6: `lerpHue(350, 10, 0.5) = 0` — circular hue interpolation takes
the short path through 0° — and in general `lerpHue` computes
`delta = ((h2 - h1 + 540) % 360) - 180` and returns
`(h1 + delta * t + 360) % 360`. -/
theorem lerpHue_shortpath :
    lerpHue 350 10 (1 / 2) = 0 ∧
      ∀ h1 h2 t : ℚ,
        lerpHue h1 h2 t = jsMod (h1 + (jsMod (h2 - h1 + 540) 360 - 180) * t + 360) 360 := by
  exact ⟨by with_unfolding_all decide, fun h1 h2 t => rfl⟩

/-! ### Claim C7 -/

/-- Claim C7: one build pass produces exactly 60 tiles; tile `i` carries a
visible label consisting of the 1-based ordinal `i + 1` zero-padded to 3
digits followed by the tile's hex color; the 60 ordinals are the distinct
strings 001 through 060. -/
theorem grid_tiles_and_labels (r : ℕ) (_hr : r < TILE_COUNT) :
    (buildTiles r).length = 60 ∧
      (∀ i, i < 60 →
        (buildTiles r)[i]? = some (mkTile (interestsIndexOf r) i) ∧
          ∃ c : String, (mkTile (interestsIndexOf r) i).color = some c ∧
            (mkTile (interestsIndexOf r) i).label =
              some ("#" ++ jsPadStart (Nat.repr (i + 1)) 3 '0' ++ "  " ++ c)) ∧
      ordinalLabels = ["001", "002", "003", "004", "005", "006", "007", "008", "009", "010",
        "011", "012", "013", "014", "015", "016", "017", "018", "019", "020",
        "021", "022", "023", "024", "025", "026", "027", "028", "029", "030",
        "031", "032", "033", "034", "035", "036", "037", "038", "039", "040",
        "041", "042", "043", "044", "045", "046", "047", "048", "049", "050",
        "051", "052", "053", "054", "055", "056", "057", "058", "059", "060"] ∧
      ordinalLabels.Nodup := by
  refine ⟨by simp [buildTiles, TILE_COUNT], fun i hi => ⟨?_, ?_⟩, ordinalLabels_eq, ?_⟩
  · have hi' : i < TILE_COUNT := hi
    simp [buildTiles, List.getElem?_map, List.getElem?_range hi']
  · have hsome := tileColor_isSome i hi
    rw [← mkTile_color (interestsIndexOf r) i] at hsome
    obtain ⟨c, hc⟩ := Option.isSome_iff_exists.mp hsome
    exact ⟨c, hc, by rw [mkTile_label, hc]; rfl⟩
  · rw [ordinalLabels_eq]
    decide

theorem grid_tiles_and_labels_witness :
    (PaletteScript.buildTiles 5).length = 60 :=
  (grid_tiles_and_labels 5 (by decide)).1

/-! ### The hex → RGB → HSL → hex round trip is exact (towards claim C3) -/

theorem cast255_le_one {n : ℕ} (h : n ≤ 255) : ((n : ℚ)) / 255 ≤ 1 := by
  rw [div_le_one (by norm_num)]
  exact_mod_cast h

theorem cast255_mono {a c : ℕ} (h : a ≤ c) : (a : ℚ) / 255 ≤ (c : ℚ) / 255 := by
  have : (a : ℚ) ≤ c := Nat.cast_le.mpr h
  linarith

theorem cast255_strict_mono {a c : ℕ} (h : a < c) : (a : ℚ) / 255 < (c : ℚ) / 255 := by
  have : (a : ℚ) < c := Nat.cast_lt.mpr h
  linarith

theorem habs_of_max_min {mxv mnv : ℚ} (h0 : 0 ≤ mnv) (h1 : mnv < mxv) (h2 : mxv ≤ 1) :
    |2 * ((mxv + mnv) / 2) - 1| < 1 :=
  abs_lt.mpr ⟨by linarith, by linarith⟩

/-- Feeding `rgbToHsl`-shaped saturation and lightness into `hslChannels`
cancels to chroma `c = mxv - mnv` and offset `m = mnv`. -/
theorem hslChannels_eq_of (h mxv mnv : ℚ) (habs : |2 * ((mxv + mnv) / 2) - 1| < 1) :
    hslChannels h ((mxv - mnv) / (1 - |2 * ((mxv + mnv) / 2) - 1|) * 100)
      ((mxv + mnv) / 2 * 100) =
      (jsRound (((sector (h / 60) (mxv - mnv)
          ((mxv - mnv) * (1 - |jsMod (h / 60) 2 - 1|))).1 + mnv) * 255),
       jsRound (((sector (h / 60) (mxv - mnv)
          ((mxv - mnv) * (1 - |jsMod (h / 60) 2 - 1|))).2.1 + mnv) * 255),
       jsRound (((sector (h / 60) (mxv - mnv)
          ((mxv - mnv) * (1 - |jsMod (h / 60) 2 - 1|))).2.2 + mnv) * 255)) := by
  have hne : (1 : ℚ) - |2 * ((mxv + mnv) / 2) - 1| ≠ 0 := ne_of_gt (by linarith)
  simp only [hslChannels]
  have h100l : (mxv + mnv) / 2 * 100 / 100 = (mxv + mnv) / 2 := by ring
  have h100s : (mxv - mnv) / (1 - |2 * ((mxv + mnv) / 2) - 1|) * 100 / 100 =
      (mxv - mnv) / (1 - |2 * ((mxv + mnv) / 2) - 1|) := by ring
  rw [h100l, h100s, mul_comm (1 - |2 * ((mxv + mnv) / 2) - 1|)
    ((mxv - mnv) / (1 - |2 * ((mxv + mnv) / 2) - 1|)), div_mul_cancel₀ _ hne]
  have hm : (mxv + mnv) / 2 - (mxv - mnv) / 2 = mnv := by ring
  rw [hm]

/-- Case `b ≤ g < r`: maximal channel `r`, hue in sector 0. -/
theorem roundTrip_case1 (r g b : ℕ) (hr : r ≤ 255) (hbg : b ≤ g) (hgr : g < r) :
    roundTripChannels (r : ℚ) (g : ℚ) (b : ℚ) = ((r : ℤ), (g : ℤ), (b : ℤ)) := by
  have hbgQ := cast255_mono (a := b) (c := g) hbg
  have hgrQ := cast255_strict_mono (a := g) (c := r) hgr
  have hb0 : (0 : ℚ) ≤ (b : ℚ) / 255 := by positivity
  have hr1 := cast255_le_one (n := r) hr
  have hdpos : (0 : ℚ) < (r : ℚ) / 255 - (b : ℚ) / 255 := by linarith
  have hne : (r : ℚ) / 255 - (b : ℚ) / 255 ≠ 0 := ne_of_gt hdpos
  have hmax : max ((r : ℚ) / 255) (max ((g : ℚ) / 255) ((b : ℚ) / 255)) = (r : ℚ) / 255 := by
    rw [max_eq_left (max_le (le_of_lt hgrQ) (by linarith))]
  have hmin : min ((r : ℚ) / 255) (min ((g : ℚ) / 255) ((b : ℚ) / 255)) = (b : ℚ) / 255 := by
    rw [min_eq_right hbgQ, min_eq_right (by linarith : (b : ℚ) / 255 ≤ (r : ℚ) / 255)]
  have hq0 : 0 ≤ ((g : ℚ) / 255 - (b : ℚ) / 255) / ((r : ℚ) / 255 - (b : ℚ) / 255) :=
    div_nonneg (by linarith) (by linarith)
  have hq1 : ((g : ℚ) / 255 - (b : ℚ) / 255) / ((r : ℚ) / 255 - (b : ℚ) / 255) < 1 :=
    (div_lt_one hdpos).mpr (by linarith)
  have hrgb : rgbToHsl (r : ℚ) (g : ℚ) (b : ℚ) =
      (((g : ℚ) / 255 - (b : ℚ) / 255) / ((r : ℚ) / 255 - (b : ℚ) / 255) * 60,
       ((r : ℚ) / 255 - (b : ℚ) / 255) /
         (1 - |2 * (((r : ℚ) / 255 + (b : ℚ) / 255) / 2) - 1|) * 100,
       ((r : ℚ) / 255 + (b : ℚ) / 255) / 2 * 100) := by
    simp only [rgbToHsl]
    rw [hmax, hmin, if_pos hne, if_pos rfl,
      jsMod_eq_self (by norm_num) (by linarith) (by linarith),
      if_neg (not_lt.mpr (by positivity)), if_neg hne]
  have habs := habs_of_max_min hb0 (by linarith : (b : ℚ) / 255 < (r : ℚ) / 255) hr1
  simp only [roundTripChannels, hrgb]
  rw [hslChannels_eq_of _ _ _ habs]
  have h60 : ((g : ℚ) / 255 - (b : ℚ) / 255) / ((r : ℚ) / 255 - (b : ℚ) / 255) * 60 / 60 =
      ((g : ℚ) / 255 - (b : ℚ) / 255) / ((r : ℚ) / 255 - (b : ℚ) / 255) := by ring
  rw [h60, jsMod_eq_self (by norm_num) (by linarith) (by linarith),
    abs_of_nonpos (by linarith), sector_eq0 _ _ hq0 hq1]
  have e1 : ((r : ℚ) / 255 - (b : ℚ) / 255 + (b : ℚ) / 255) * 255 = ((r : ℕ) : ℚ) := by
    ring
  have e2 : (((r : ℚ) / 255 - (b : ℚ) / 255) *
      (1 - -(((g : ℚ) / 255 - (b : ℚ) / 255) / ((r : ℚ) / 255 - (b : ℚ) / 255) - 1)) +
      (b : ℚ) / 255) * 255 = ((g : ℕ) : ℚ) := by
    have h1q : (1 : ℚ) -
        -(((g : ℚ) / 255 - (b : ℚ) / 255) / ((r : ℚ) / 255 - (b : ℚ) / 255) - 1) =
        ((g : ℚ) / 255 - (b : ℚ) / 255) / ((r : ℚ) / 255 - (b : ℚ) / 255) := by ring
    rw [h1q, mul_comm ((r : ℚ) / 255 - (b : ℚ) / 255)
      (((g : ℚ) / 255 - (b : ℚ) / 255) / ((r : ℚ) / 255 - (b : ℚ) / 255)),
      div_mul_cancel₀ _ hne]
    ring
  have e3 : ((0 : ℚ) + (b : ℚ) / 255) * 255 = ((b : ℕ) : ℚ) := by
    ring
  rw [e1, e2, e3, jsRound_natCast, jsRound_natCast, jsRound_natCast]

/-- Case `b < r = g`: hue lands exactly on the sector boundary `hh = 1`. -/
theorem roundTrip_case1b (r b : ℕ) (hr : r ≤ 255) (hbr : b < r) :
    roundTripChannels (r : ℚ) (r : ℚ) (b : ℚ) = ((r : ℤ), (r : ℤ), (b : ℤ)) := by
  have hbrQ := cast255_strict_mono (a := b) (c := r) hbr
  have hb0 : (0 : ℚ) ≤ (b : ℚ) / 255 := by positivity
  have hr1 := cast255_le_one (n := r) hr
  have hne : (r : ℚ) / 255 - (b : ℚ) / 255 ≠ 0 := ne_of_gt (by linarith)
  have hmax : max ((r : ℚ) / 255) (max ((r : ℚ) / 255) ((b : ℚ) / 255)) = (r : ℚ) / 255 := by
    rw [max_eq_left hbrQ.le, max_self]
  have hmin : min ((r : ℚ) / 255) (min ((r : ℚ) / 255) ((b : ℚ) / 255)) = (b : ℚ) / 255 := by
    rw [min_eq_right hbrQ.le, min_eq_right hbrQ.le]
  have hrgb : rgbToHsl (r : ℚ) (r : ℚ) (b : ℚ) =
      (1 * 60,
       ((r : ℚ) / 255 - (b : ℚ) / 255) /
         (1 - |2 * (((r : ℚ) / 255 + (b : ℚ) / 255) / 2) - 1|) * 100,
       ((r : ℚ) / 255 + (b : ℚ) / 255) / 2 * 100) := by
    simp only [rgbToHsl]
    rw [hmax, hmin, if_pos hne, if_pos rfl, div_self hne,
      jsMod_eq_self (by norm_num) (by norm_num) (by norm_num),
      if_neg (not_lt.mpr (by norm_num)), if_neg hne]
  have habs := habs_of_max_min hb0 hbrQ hr1
  simp only [roundTripChannels, hrgb]
  rw [hslChannels_eq_of _ _ _ habs]
  have h60 : (1 : ℚ) * 60 / 60 = 1 := by norm_num
  rw [h60, jsMod_eq_self (by norm_num) (by norm_num) (by norm_num),
    show |(1 : ℚ) - 1| = 0 by norm_num,
    sector_eq1 _ _ le_rfl (by norm_num)]
  have e1 : (((r : ℚ) / 255 - (b : ℚ) / 255) * (1 - 0) + (b : ℚ) / 255) * 255 =
      ((r : ℕ) : ℚ) := by
    ring
  have e2 : ((r : ℚ) / 255 - (b : ℚ) / 255 + (b : ℚ) / 255) * 255 = ((r : ℕ) : ℚ) := by
    ring
  have e3 : ((0 : ℚ) + (b : ℚ) / 255) * 255 = ((b : ℕ) : ℚ) := by
    ring
  rw [e1, e2, e3, jsRound_natCast, jsRound_natCast]

/-- Case `r = g = b`: the achromatic diagonal, `d = 0`. -/
theorem roundTrip_case0 (n : ℕ) :
    roundTripChannels (n : ℚ) (n : ℚ) (n : ℚ) = ((n : ℤ), (n : ℤ), (n : ℤ)) := by
  have hrgb : rgbToHsl (n : ℚ) (n : ℚ) (n : ℚ) =
      (0, 0 * 100, ((n : ℚ) / 255 + (n : ℚ) / 255) / 2 * 100) := by
    simp only [rgbToHsl]
    rw [max_self, max_self, min_self, min_self,
      if_neg (not_ne_iff.mpr (sub_self ((n : ℚ) / 255))), if_pos (sub_self ((n : ℚ) / 255))]
  simp only [roundTripChannels, hrgb]
  simp only [hslChannels]
  rw [show (0 : ℚ) * 100 / 100 = 0 by norm_num, mul_zero,
    show (0 : ℚ) / 60 = 0 by norm_num, zero_mul,
    sector_eq0 _ _ le_rfl (by norm_num)]
  have e : ((0 : ℚ) + (((n : ℚ) / 255 + (n : ℚ) / 255) / 2 * 100 / 100 - 0 / 2)) * 255 =
      ((n : ℕ) : ℚ) := by
    ring
  rw [e, jsRound_natCast]

/-- Case `g < b ≤ r`: maximal channel `r`, negative raw hue, sector 5. -/
theorem roundTrip_case2 (r g b : ℕ) (hr : r ≤ 255) (hgb : g < b) (hbr : b ≤ r) :
    roundTripChannels (r : ℚ) (g : ℚ) (b : ℚ) = ((r : ℤ), (g : ℤ), (b : ℤ)) := by
  have hgbQ := cast255_strict_mono (a := g) (c := b) hgb
  have hbrQ := cast255_mono (a := b) (c := r) hbr
  have hg0 : (0 : ℚ) ≤ (g : ℚ) / 255 := by positivity
  have hr1 := cast255_le_one (n := r) hr
  have hdpos : (0 : ℚ) < (r : ℚ) / 255 - (g : ℚ) / 255 := by linarith
  have hne : (r : ℚ) / 255 - (g : ℚ) / 255 ≠ 0 := ne_of_gt hdpos
  have hmax : max ((r : ℚ) / 255) (max ((g : ℚ) / 255) ((b : ℚ) / 255)) = (r : ℚ) / 255 := by
    rw [max_eq_left (max_le (by linarith) hbrQ)]
  have hmin : min ((r : ℚ) / 255) (min ((g : ℚ) / 255) ((b : ℚ) / 255)) = (g : ℚ) / 255 := by
    rw [min_eq_left hgbQ.le, min_eq_right (by linarith : (g : ℚ) / 255 ≤ (r : ℚ) / 255)]
  have hq1 : -1 ≤ ((g : ℚ) / 255 - (b : ℚ) / 255) / ((r : ℚ) / 255 - (g : ℚ) / 255) := by
    rw [le_div_iff₀ hdpos]
    linarith
  have hq0 : ((g : ℚ) / 255 - (b : ℚ) / 255) / ((r : ℚ) / 255 - (g : ℚ) / 255) < 0 :=
    div_neg_of_neg_of_pos (by linarith) hdpos
  have hrgb : rgbToHsl (r : ℚ) (g : ℚ) (b : ℚ) =
      (((g : ℚ) / 255 - (b : ℚ) / 255) / ((r : ℚ) / 255 - (g : ℚ) / 255) * 60 + 360,
       ((r : ℚ) / 255 - (g : ℚ) / 255) /
         (1 - |2 * (((r : ℚ) / 255 + (g : ℚ) / 255) / 2) - 1|) * 100,
       ((r : ℚ) / 255 + (g : ℚ) / 255) / 2 * 100) := by
    simp only [rgbToHsl]
    rw [hmax, hmin, if_pos hne, if_pos rfl,
      jsMod_eq_self (by norm_num) (by linarith) (by linarith),
      if_pos (mul_neg_of_neg_of_pos hq0 (by norm_num)), if_neg hne]
  have habs := habs_of_max_min hg0 (by linarith : (g : ℚ) / 255 < (r : ℚ) / 255) hr1
  simp only [roundTripChannels, hrgb]
  rw [hslChannels_eq_of _ _ _ habs]
  have h60 : (((g : ℚ) / 255 - (b : ℚ) / 255) / ((r : ℚ) / 255 - (g : ℚ) / 255) * 60 + 360) / 60 =
      ((g : ℚ) / 255 - (b : ℚ) / 255) / ((r : ℚ) / 255 - (g : ℚ) / 255) + 6 := by ring
  rw [h60, jsMod_two_shift4 (by linarith) (by linarith),
    abs_of_nonneg (by linarith :
      (0 : ℚ) ≤ ((g : ℚ) / 255 - (b : ℚ) / 255) / ((r : ℚ) / 255 - (g : ℚ) / 255) + 6 - 4 - 1),
    sector_eq5 _ _ (by linarith) (by linarith)]
  have e1 : ((r : ℚ) / 255 - (g : ℚ) / 255 + (g : ℚ) / 255) * 255 = ((r : ℕ) : ℚ) := by
    ring
  have e2 : ((0 : ℚ) + (g : ℚ) / 255) * 255 = ((g : ℕ) : ℚ) := by
    ring
  have e3 : (((r : ℚ) / 255 - (g : ℚ) / 255) *
      (1 - (((g : ℚ) / 255 - (b : ℚ) / 255) / ((r : ℚ) / 255 - (g : ℚ) / 255) + 6 - 4 - 1)) +
      (g : ℚ) / 255) * 255 = ((b : ℕ) : ℚ) := by
    have h1q : (1 : ℚ) -
        (((g : ℚ) / 255 - (b : ℚ) / 255) / ((r : ℚ) / 255 - (g : ℚ) / 255) + 6 - 4 - 1) =
        -(((g : ℚ) / 255 - (b : ℚ) / 255) / ((r : ℚ) / 255 - (g : ℚ) / 255)) := by ring
    rw [h1q, mul_neg, mul_comm ((r : ℚ) / 255 - (g : ℚ) / 255)
      (((g : ℚ) / 255 - (b : ℚ) / 255) / ((r : ℚ) / 255 - (g : ℚ) / 255)),
      div_mul_cancel₀ _ hne]
    ring
  rw [e1, e2, e3, jsRound_natCast, jsRound_natCast, jsRound_natCast]

/-- Case `b < r < g`: maximal channel `g`, sector 1. -/
theorem roundTrip_case3 (r g b : ℕ) (hg : g ≤ 255) (hbr : b < r) (hrg : r < g) :
    roundTripChannels (r : ℚ) (g : ℚ) (b : ℚ) = ((r : ℤ), (g : ℤ), (b : ℤ)) := by
  have hbrQ := cast255_strict_mono (a := b) (c := r) hbr
  have hrgQ := cast255_strict_mono (a := r) (c := g) hrg
  have hb0 : (0 : ℚ) ≤ (b : ℚ) / 255 := by positivity
  have hg1 := cast255_le_one (n := g) hg
  have hdpos : (0 : ℚ) < (g : ℚ) / 255 - (b : ℚ) / 255 := by linarith
  have hne : (g : ℚ) / 255 - (b : ℚ) / 255 ≠ 0 := ne_of_gt hdpos
  have hmax : max ((r : ℚ) / 255) (max ((g : ℚ) / 255) ((b : ℚ) / 255)) = (g : ℚ) / 255 := by
    rw [max_eq_left (by linarith : (b : ℚ) / 255 ≤ (g : ℚ) / 255), max_eq_right hrgQ.le]
  have hmin : min ((r : ℚ) / 255) (min ((g : ℚ) / 255) ((b : ℚ) / 255)) = (b : ℚ) / 255 := by
    rw [min_eq_right (by linarith : (b : ℚ) / 255 ≤ (g : ℚ) / 255),
      min_eq_right (by linarith : (b : ℚ) / 255 ≤ (r : ℚ) / 255)]
  have hqgt : -1 < ((b : ℚ) / 255 - (r : ℚ) / 255) / ((g : ℚ) / 255 - (b : ℚ) / 255) := by
    rw [lt_div_iff₀ hdpos]
    linarith
  have hqlt : ((b : ℚ) / 255 - (r : ℚ) / 255) / ((g : ℚ) / 255 - (b : ℚ) / 255) < 0 :=
    div_neg_of_neg_of_pos (by linarith) hdpos
  have hrgb : rgbToHsl (r : ℚ) (g : ℚ) (b : ℚ) =
      ((((b : ℚ) / 255 - (r : ℚ) / 255) / ((g : ℚ) / 255 - (b : ℚ) / 255) + 2) * 60,
       ((g : ℚ) / 255 - (b : ℚ) / 255) /
         (1 - |2 * (((g : ℚ) / 255 + (b : ℚ) / 255) / 2) - 1|) * 100,
       ((g : ℚ) / 255 + (b : ℚ) / 255) / 2 * 100) := by
    simp only [rgbToHsl]
    rw [hmax, hmin, if_pos hne, if_neg (ne_of_gt hrgQ), if_pos rfl,
      if_neg (not_lt.mpr (by nlinarith [hqgt])), if_neg hne]
  have habs := habs_of_max_min hb0 (by linarith : (b : ℚ) / 255 < (g : ℚ) / 255) hg1
  simp only [roundTripChannels, hrgb]
  rw [hslChannels_eq_of _ _ _ habs]
  have h60 : (((b : ℚ) / 255 - (r : ℚ) / 255) / ((g : ℚ) / 255 - (b : ℚ) / 255) + 2) * 60 / 60 =
      ((b : ℚ) / 255 - (r : ℚ) / 255) / ((g : ℚ) / 255 - (b : ℚ) / 255) + 2 := by ring
  rw [h60, jsMod_eq_self (by norm_num) (by linarith) (by linarith),
    abs_of_nonneg (by linarith :
      (0 : ℚ) ≤ ((b : ℚ) / 255 - (r : ℚ) / 255) / ((g : ℚ) / 255 - (b : ℚ) / 255) + 2 - 1),
    sector_eq1 _ _ (by linarith) (by linarith)]
  have e1 : (((g : ℚ) / 255 - (b : ℚ) / 255) *
      (1 - (((b : ℚ) / 255 - (r : ℚ) / 255) / ((g : ℚ) / 255 - (b : ℚ) / 255) + 2 - 1)) +
      (b : ℚ) / 255) * 255 = ((r : ℕ) : ℚ) := by
    have h1q : (1 : ℚ) -
        (((b : ℚ) / 255 - (r : ℚ) / 255) / ((g : ℚ) / 255 - (b : ℚ) / 255) + 2 - 1) =
        -(((b : ℚ) / 255 - (r : ℚ) / 255) / ((g : ℚ) / 255 - (b : ℚ) / 255)) := by ring
    rw [h1q, mul_neg, mul_comm ((g : ℚ) / 255 - (b : ℚ) / 255)
      (((b : ℚ) / 255 - (r : ℚ) / 255) / ((g : ℚ) / 255 - (b : ℚ) / 255)),
      div_mul_cancel₀ _ hne]
    ring
  have e2 : ((g : ℚ) / 255 - (b : ℚ) / 255 + (b : ℚ) / 255) * 255 = ((g : ℕ) : ℚ) := by
    ring
  have e3 : ((0 : ℚ) + (b : ℚ) / 255) * 255 = ((b : ℕ) : ℚ) := by
    ring
  rw [e1, e2, e3, jsRound_natCast, jsRound_natCast, jsRound_natCast]

/-- Case `r ≤ b < g`: maximal channel `g`, sector 2. -/
theorem roundTrip_case4 (r g b : ℕ) (hg : g ≤ 255) (hrb : r ≤ b) (hbg : b < g) :
    roundTripChannels (r : ℚ) (g : ℚ) (b : ℚ) = ((r : ℤ), (g : ℤ), (b : ℤ)) := by
  have hrbQ := cast255_mono (a := r) (c := b) hrb
  have hbgQ := cast255_strict_mono (a := b) (c := g) hbg
  have hr0 : (0 : ℚ) ≤ (r : ℚ) / 255 := by positivity
  have hg1 := cast255_le_one (n := g) hg
  have hdpos : (0 : ℚ) < (g : ℚ) / 255 - (r : ℚ) / 255 := by linarith
  have hne : (g : ℚ) / 255 - (r : ℚ) / 255 ≠ 0 := ne_of_gt hdpos
  have hmax : max ((r : ℚ) / 255) (max ((g : ℚ) / 255) ((b : ℚ) / 255)) = (g : ℚ) / 255 := by
    rw [max_eq_left hbgQ.le, max_eq_right (by linarith : (r : ℚ) / 255 ≤ (g : ℚ) / 255)]
  have hmin : min ((r : ℚ) / 255) (min ((g : ℚ) / 255) ((b : ℚ) / 255)) = (r : ℚ) / 255 := by
    rw [min_eq_right hbgQ.le, min_eq_left hrbQ]
  have hq0 : 0 ≤ ((b : ℚ) / 255 - (r : ℚ) / 255) / ((g : ℚ) / 255 - (r : ℚ) / 255) :=
    div_nonneg (by linarith) (by linarith)
  have hq1 : ((b : ℚ) / 255 - (r : ℚ) / 255) / ((g : ℚ) / 255 - (r : ℚ) / 255) < 1 :=
    (div_lt_one hdpos).mpr (by linarith)
  have hrgb : rgbToHsl (r : ℚ) (g : ℚ) (b : ℚ) =
      ((((b : ℚ) / 255 - (r : ℚ) / 255) / ((g : ℚ) / 255 - (r : ℚ) / 255) + 2) * 60,
       ((g : ℚ) / 255 - (r : ℚ) / 255) /
         (1 - |2 * (((g : ℚ) / 255 + (r : ℚ) / 255) / 2) - 1|) * 100,
       ((g : ℚ) / 255 + (r : ℚ) / 255) / 2 * 100) := by
    simp only [rgbToHsl]
    rw [hmax, hmin, if_pos hne, if_neg (ne_of_gt (by linarith : (r : ℚ) / 255 < (g : ℚ) / 255)),
      if_pos rfl, if_neg (not_lt.mpr (by nlinarith [hq0])), if_neg hne]
  have habs := habs_of_max_min hr0 (by linarith : (r : ℚ) / 255 < (g : ℚ) / 255) hg1
  simp only [roundTripChannels, hrgb]
  rw [hslChannels_eq_of _ _ _ habs]
  have h60 : (((b : ℚ) / 255 - (r : ℚ) / 255) / ((g : ℚ) / 255 - (r : ℚ) / 255) + 2) * 60 / 60 =
      ((b : ℚ) / 255 - (r : ℚ) / 255) / ((g : ℚ) / 255 - (r : ℚ) / 255) + 2 := by ring
  rw [h60, jsMod_two_shift2 (by linarith) (by linarith),
    abs_of_nonpos (by linarith :
      ((b : ℚ) / 255 - (r : ℚ) / 255) / ((g : ℚ) / 255 - (r : ℚ) / 255) + 2 - 2 - 1 ≤ 0),
    sector_eq2 _ _ (by linarith) (by linarith)]
  have e1 : ((0 : ℚ) + (r : ℚ) / 255) * 255 = ((r : ℕ) : ℚ) := by
    ring
  have e2 : ((g : ℚ) / 255 - (r : ℚ) / 255 + (r : ℚ) / 255) * 255 = ((g : ℕ) : ℚ) := by
    ring
  have e3 : (((g : ℚ) / 255 - (r : ℚ) / 255) *
      (1 - -(((b : ℚ) / 255 - (r : ℚ) / 255) / ((g : ℚ) / 255 - (r : ℚ) / 255) + 2 - 2 - 1)) +
      (r : ℚ) / 255) * 255 = ((b : ℕ) : ℚ) := by
    have h1q : (1 : ℚ) -
        -(((b : ℚ) / 255 - (r : ℚ) / 255) / ((g : ℚ) / 255 - (r : ℚ) / 255) + 2 - 2 - 1) =
        ((b : ℚ) / 255 - (r : ℚ) / 255) / ((g : ℚ) / 255 - (r : ℚ) / 255) := by ring
    rw [h1q, mul_comm ((g : ℚ) / 255 - (r : ℚ) / 255)
      (((b : ℚ) / 255 - (r : ℚ) / 255) / ((g : ℚ) / 255 - (r : ℚ) / 255)),
      div_mul_cancel₀ _ hne]
    ring
  rw [e1, e2, e3, jsRound_natCast, jsRound_natCast, jsRound_natCast]

/-- Case `r < g = b`: hue lands exactly on the sector boundary `hh = 3`. -/
theorem roundTrip_case5 (r g : ℕ) (hg : g ≤ 255) (hrg : r < g) :
    roundTripChannels (r : ℚ) (g : ℚ) (g : ℚ) = ((r : ℤ), (g : ℤ), (g : ℤ)) := by
  have hrgQ := cast255_strict_mono (a := r) (c := g) hrg
  have hr0 : (0 : ℚ) ≤ (r : ℚ) / 255 := by positivity
  have hg1 := cast255_le_one (n := g) hg
  have hne : (g : ℚ) / 255 - (r : ℚ) / 255 ≠ 0 := ne_of_gt (by linarith)
  have hmax : max ((r : ℚ) / 255) (max ((g : ℚ) / 255) ((g : ℚ) / 255)) = (g : ℚ) / 255 := by
    rw [max_self, max_eq_right hrgQ.le]
  have hmin : min ((r : ℚ) / 255) (min ((g : ℚ) / 255) ((g : ℚ) / 255)) = (r : ℚ) / 255 := by
    rw [min_self, min_eq_left hrgQ.le]
  have hrgb : rgbToHsl (r : ℚ) (g : ℚ) (g : ℚ) =
      (((1 : ℚ) + 2) * 60,
       ((g : ℚ) / 255 - (r : ℚ) / 255) /
         (1 - |2 * (((g : ℚ) / 255 + (r : ℚ) / 255) / 2) - 1|) * 100,
       ((g : ℚ) / 255 + (r : ℚ) / 255) / 2 * 100) := by
    simp only [rgbToHsl]
    rw [hmax, hmin, if_pos hne, if_neg (ne_of_gt hrgQ), if_pos rfl, div_self hne,
      if_neg (not_lt.mpr (by norm_num)), if_neg hne]
  have habs := habs_of_max_min hr0 hrgQ hg1
  simp only [roundTripChannels, hrgb]
  rw [hslChannels_eq_of _ _ _ habs]
  have h60 : ((1 : ℚ) + 2) * 60 / 60 = 3 := by norm_num
  rw [h60, jsMod_two_shift2 (by norm_num) (by norm_num),
    show |(3 : ℚ) - 2 - 1| = 0 by norm_num,
    sector_eq3 _ _ (by norm_num) (by norm_num)]
  have e1 : ((0 : ℚ) + (r : ℚ) / 255) * 255 = ((r : ℕ) : ℚ) := by
    ring
  have e2 : (((g : ℚ) / 255 - (r : ℚ) / 255) * (1 - 0) + (r : ℚ) / 255) * 255 =
      ((g : ℕ) : ℚ) := by
    ring
  have e3 : ((g : ℚ) / 255 - (r : ℚ) / 255 + (r : ℚ) / 255) * 255 = ((g : ℕ) : ℚ) := by
    ring
  rw [e1, e2, e3, jsRound_natCast, jsRound_natCast]

/-- Case `r < g < b`: maximal channel `b`, sector 3. -/
theorem roundTrip_case6 (r g b : ℕ) (hb : b ≤ 255) (hrg : r < g) (hgb : g < b) :
    roundTripChannels (r : ℚ) (g : ℚ) (b : ℚ) = ((r : ℤ), (g : ℤ), (b : ℤ)) := by
  have hrgQ := cast255_strict_mono (a := r) (c := g) hrg
  have hgbQ := cast255_strict_mono (a := g) (c := b) hgb
  have hr0 : (0 : ℚ) ≤ (r : ℚ) / 255 := by positivity
  have hb1 := cast255_le_one (n := b) hb
  have hdpos : (0 : ℚ) < (b : ℚ) / 255 - (r : ℚ) / 255 := by linarith
  have hne : (b : ℚ) / 255 - (r : ℚ) / 255 ≠ 0 := ne_of_gt hdpos
  have hmax : max ((r : ℚ) / 255) (max ((g : ℚ) / 255) ((b : ℚ) / 255)) = (b : ℚ) / 255 := by
    rw [max_eq_right hgbQ.le, max_eq_right (by linarith : (r : ℚ) / 255 ≤ (b : ℚ) / 255)]
  have hmin : min ((r : ℚ) / 255) (min ((g : ℚ) / 255) ((b : ℚ) / 255)) = (r : ℚ) / 255 := by
    rw [min_eq_left hgbQ.le, min_eq_left hrgQ.le]
  have hqgt : -1 < ((r : ℚ) / 255 - (g : ℚ) / 255) / ((b : ℚ) / 255 - (r : ℚ) / 255) := by
    rw [lt_div_iff₀ hdpos]
    linarith
  have hqlt : ((r : ℚ) / 255 - (g : ℚ) / 255) / ((b : ℚ) / 255 - (r : ℚ) / 255) < 0 :=
    div_neg_of_neg_of_pos (by linarith) hdpos
  have hrgb : rgbToHsl (r : ℚ) (g : ℚ) (b : ℚ) =
      ((((r : ℚ) / 255 - (g : ℚ) / 255) / ((b : ℚ) / 255 - (r : ℚ) / 255) + 4) * 60,
       ((b : ℚ) / 255 - (r : ℚ) / 255) /
         (1 - |2 * (((b : ℚ) / 255 + (r : ℚ) / 255) / 2) - 1|) * 100,
       ((b : ℚ) / 255 + (r : ℚ) / 255) / 2 * 100) := by
    simp only [rgbToHsl]
    rw [hmax, hmin, if_pos hne,
      if_neg (ne_of_gt (by linarith : (r : ℚ) / 255 < (b : ℚ) / 255)),
      if_neg (ne_of_gt (by linarith : (g : ℚ) / 255 < (b : ℚ) / 255)),
      if_neg (not_lt.mpr (by nlinarith [hqgt])), if_neg hne]
  have habs := habs_of_max_min hr0 (by linarith : (r : ℚ) / 255 < (b : ℚ) / 255) hb1
  simp only [roundTripChannels, hrgb]
  rw [hslChannels_eq_of _ _ _ habs]
  have h60 : (((r : ℚ) / 255 - (g : ℚ) / 255) / ((b : ℚ) / 255 - (r : ℚ) / 255) + 4) * 60 / 60 =
      ((r : ℚ) / 255 - (g : ℚ) / 255) / ((b : ℚ) / 255 - (r : ℚ) / 255) + 4 := by ring
  rw [h60, jsMod_two_shift2 (by linarith) (by linarith),
    abs_of_nonneg (by linarith :
      (0 : ℚ) ≤ ((r : ℚ) / 255 - (g : ℚ) / 255) / ((b : ℚ) / 255 - (r : ℚ) / 255) + 4 - 2 - 1),
    sector_eq3 _ _ (by linarith) (by linarith)]
  have e1 : ((0 : ℚ) + (r : ℚ) / 255) * 255 = ((r : ℕ) : ℚ) := by
    ring
  have e2 : (((b : ℚ) / 255 - (r : ℚ) / 255) *
      (1 - (((r : ℚ) / 255 - (g : ℚ) / 255) / ((b : ℚ) / 255 - (r : ℚ) / 255) + 4 - 2 - 1)) +
      (r : ℚ) / 255) * 255 = ((g : ℕ) : ℚ) := by
    have h1q : (1 : ℚ) -
        (((r : ℚ) / 255 - (g : ℚ) / 255) / ((b : ℚ) / 255 - (r : ℚ) / 255) + 4 - 2 - 1) =
        -(((r : ℚ) / 255 - (g : ℚ) / 255) / ((b : ℚ) / 255 - (r : ℚ) / 255)) := by ring
    rw [h1q, mul_neg, mul_comm ((b : ℚ) / 255 - (r : ℚ) / 255)
      (((r : ℚ) / 255 - (g : ℚ) / 255) / ((b : ℚ) / 255 - (r : ℚ) / 255)),
      div_mul_cancel₀ _ hne]
    ring
  have e3 : ((b : ℚ) / 255 - (r : ℚ) / 255 + (r : ℚ) / 255) * 255 = ((b : ℕ) : ℚ) := by
    ring
  rw [e1, e2, e3, jsRound_natCast, jsRound_natCast, jsRound_natCast]

/-- Case `g ≤ r < b`: maximal channel `b`, sector 4. -/
theorem roundTrip_case7 (r g b : ℕ) (hb : b ≤ 255) (hgr : g ≤ r) (hrb : r < b) :
    roundTripChannels (r : ℚ) (g : ℚ) (b : ℚ) = ((r : ℤ), (g : ℤ), (b : ℤ)) := by
  have hgrQ := cast255_mono (a := g) (c := r) hgr
  have hrbQ := cast255_strict_mono (a := r) (c := b) hrb
  have hg0 : (0 : ℚ) ≤ (g : ℚ) / 255 := by positivity
  have hb1 := cast255_le_one (n := b) hb
  have hdpos : (0 : ℚ) < (b : ℚ) / 255 - (g : ℚ) / 255 := by linarith
  have hne : (b : ℚ) / 255 - (g : ℚ) / 255 ≠ 0 := ne_of_gt hdpos
  have hmax : max ((r : ℚ) / 255) (max ((g : ℚ) / 255) ((b : ℚ) / 255)) = (b : ℚ) / 255 := by
    rw [max_eq_right (by linarith : (g : ℚ) / 255 ≤ (b : ℚ) / 255),
      max_eq_right hrbQ.le]
  have hmin : min ((r : ℚ) / 255) (min ((g : ℚ) / 255) ((b : ℚ) / 255)) = (g : ℚ) / 255 := by
    rw [min_eq_left (by linarith : (g : ℚ) / 255 ≤ (b : ℚ) / 255), min_eq_right hgrQ]
  have hq0 : 0 ≤ ((r : ℚ) / 255 - (g : ℚ) / 255) / ((b : ℚ) / 255 - (g : ℚ) / 255) :=
    div_nonneg (by linarith) (by linarith)
  have hq1 : ((r : ℚ) / 255 - (g : ℚ) / 255) / ((b : ℚ) / 255 - (g : ℚ) / 255) < 1 :=
    (div_lt_one hdpos).mpr (by linarith)
  have hrgb : rgbToHsl (r : ℚ) (g : ℚ) (b : ℚ) =
      ((((r : ℚ) / 255 - (g : ℚ) / 255) / ((b : ℚ) / 255 - (g : ℚ) / 255) + 4) * 60,
       ((b : ℚ) / 255 - (g : ℚ) / 255) /
         (1 - |2 * (((b : ℚ) / 255 + (g : ℚ) / 255) / 2) - 1|) * 100,
       ((b : ℚ) / 255 + (g : ℚ) / 255) / 2 * 100) := by
    simp only [rgbToHsl]
    rw [hmax, hmin, if_pos hne,
      if_neg (ne_of_gt (by linarith : (r : ℚ) / 255 < (b : ℚ) / 255)),
      if_neg (ne_of_gt (by linarith : (g : ℚ) / 255 < (b : ℚ) / 255)),
      if_neg (not_lt.mpr (by nlinarith [hq0])), if_neg hne]
  have habs := habs_of_max_min hg0 (by linarith : (g : ℚ) / 255 < (b : ℚ) / 255) hb1
  simp only [roundTripChannels, hrgb]
  rw [hslChannels_eq_of _ _ _ habs]
  have h60 : (((r : ℚ) / 255 - (g : ℚ) / 255) / ((b : ℚ) / 255 - (g : ℚ) / 255) + 4) * 60 / 60 =
      ((r : ℚ) / 255 - (g : ℚ) / 255) / ((b : ℚ) / 255 - (g : ℚ) / 255) + 4 := by ring
  rw [h60, jsMod_two_shift4 (by linarith) (by linarith),
    abs_of_nonpos (by linarith :
      ((r : ℚ) / 255 - (g : ℚ) / 255) / ((b : ℚ) / 255 - (g : ℚ) / 255) + 4 - 4 - 1 ≤ 0),
    sector_eq4 _ _ (by linarith) (by linarith)]
  have e1 : (((b : ℚ) / 255 - (g : ℚ) / 255) *
      (1 - -(((r : ℚ) / 255 - (g : ℚ) / 255) / ((b : ℚ) / 255 - (g : ℚ) / 255) + 4 - 4 - 1)) +
      (g : ℚ) / 255) * 255 = ((r : ℕ) : ℚ) := by
    have h1q : (1 : ℚ) -
        -(((r : ℚ) / 255 - (g : ℚ) / 255) / ((b : ℚ) / 255 - (g : ℚ) / 255) + 4 - 4 - 1) =
        ((r : ℚ) / 255 - (g : ℚ) / 255) / ((b : ℚ) / 255 - (g : ℚ) / 255) := by ring
    rw [h1q, mul_comm ((b : ℚ) / 255 - (g : ℚ) / 255)
      (((r : ℚ) / 255 - (g : ℚ) / 255) / ((b : ℚ) / 255 - (g : ℚ) / 255)),
      div_mul_cancel₀ _ hne]
    ring
  have e2 : ((0 : ℚ) + (g : ℚ) / 255) * 255 = ((g : ℕ) : ℚ) := by
    ring
  have e3 : ((b : ℚ) / 255 - (g : ℚ) / 255 + (g : ℚ) / 255) * 255 = ((b : ℕ) : ℚ) := by
    ring
  rw [e1, e2, e3, jsRound_natCast, jsRound_natCast, jsRound_natCast]

/-- The numeric RGB → HSL → RGB round trip is exact on every byte triple. -/
theorem roundTripChannels_exact (r g b : ℕ) (hr : r ≤ 255) (hg : g ≤ 255) (hb : b ≤ 255) :
    roundTripChannels (r : ℚ) (g : ℚ) (b : ℚ) = ((r : ℤ), (g : ℤ), (b : ℤ)) := by
  rcases le_or_lt g r with hgr | hgr
  · rcases le_or_lt b g with hbg | hbg
    · rcases eq_or_lt_of_le hgr with hgr' | hgr'
      · subst hgr'
        rcases eq_or_lt_of_le hbg with hbg' | hbg'
        · subst hbg'
          exact roundTrip_case0 b
        · exact roundTrip_case1b g b hr hbg'
      · exact roundTrip_case1 r g b hr hbg hgr'
    · rcases le_or_lt b r with hbr | hbr
      · exact roundTrip_case2 r g b hr hbg hbr
      · exact roundTrip_case7 r g b hb hgr hbr
  · rcases le_or_lt b g with hbg | hbg
    · rcases eq_or_lt_of_le hbg with hbg' | hbg'
      · subst hbg'
        exact roundTrip_case5 r b hb hgr
      · rcases lt_or_le b r with hbr | hbr
        · exact roundTrip_case3 r g b hg hbr hgr
        · exact roundTrip_case4 r g b hg hbr hbg'
    · exact roundTrip_case6 r g b hb hgr hbg

/-! ### Parsing and printing lemmas for the string-level round trip -/

theorem dropWhile_eq_self_of {α : Type} {p : α → Bool} {l : List α}
    (h : ∀ c ∈ l, p c = false) : l.dropWhile p = l := by
  cases l with
  | nil => rfl
  | cons a t =>
    rw [List.dropWhile_cons, if_neg]
    simp [h a (List.mem_cons_self a t)]

theorem jsTrimL_eq_self {l : List Char} (h : ∀ c ∈ l, c.isWhitespace = false) :
    jsTrimL l = l := by
  unfold jsTrimL
  rw [dropWhile_eq_self_of h,
    dropWhile_eq_self_of (fun c hc => h c (List.mem_reverse.mp hc)), List.reverse_reverse]

theorem isHexDigitChar_not_ws {c : Char} (h : isHexDigitChar c = true) :
    c.isWhitespace = false := by
  cases hcase : c.isWhitespace
  · rfl
  · rcases (by simpa [Char.isWhitespace, or_assoc] using hcase :
        c = ' ' ∨ c = '\t' ∨ c = '\x0d' ∨ c = '\n') with rfl | rfl | rfl | rfl <;>
      exact absurd h (by decide)

theorem hexDigitVal_le {c : Char} {v : ℕ} (h : hexDigitVal c = some v) : v ≤ 15 := by
  simp only [hexDigitVal] at h
  split_ifs at h with h1 h2 h3 <;> injection h with h' <;> omega

theorem hexDigit_ne {c : Char} (h : isHexDigitChar c = true) :
    c ≠ '-' ∧ c ≠ '+' ∧ c ≠ 'x' ∧ c ≠ 'X' := by
  refine ⟨?_, ?_, ?_, ?_⟩ <;> (intro hc; subst hc; exact absurd h (by decide))

/-- `parseInt` on two hex-digit characters returns their byte value. -/
theorem jsParseInt16L_pair {d0 d1 : Char} (h0 : isHexDigitChar d0 = true)
    (h1 : isHexDigitChar d1 = true) :
    ∃ n : ℕ, n ≤ 255 ∧ jsParseInt16L [d0, d1] = some (n : ℤ) := by
  obtain ⟨v0, hv0⟩ := Option.isSome_iff_exists.mp h0
  obtain ⟨v1, hv1⟩ := Option.isSome_iff_exists.mp h1
  have hb0 := hexDigitVal_le hv0
  have hb1 := hexDigitVal_le hv1
  obtain ⟨hm0, hp0, hx0, hX0⟩ := hexDigit_ne h0
  obtain ⟨hm1, hp1, hx1, hX1⟩ := hexDigit_ne h1
  refine ⟨16 * v0 + v1, by omega, ?_⟩
  have hws : List.dropWhile Char.isWhitespace [d0, d1] = [d0, d1] :=
    dropWhile_eq_self_of (by
      intro c hc
      rcases List.mem_pair.mp hc with rfl | rfl
      · exact isHexDigitChar_not_ws h0
      · exact isHexDigitChar_not_ws h1)
  have hsign : (if ([d0, d1] : List Char).head? = some '-' ∨
      ([d0, d1] : List Char).head? = some '+' then ([d0, d1] : List Char).tail
      else [d0, d1]) = [d0, d1] := by
    rw [if_neg]
    rintro (h | h) <;> simp only [List.head?_cons, Option.some.injEq] at h
    · exact hm0 h
    · exact hp0 h
  have h0x : (if ([d0, d1] : List Char).take 2 = ['0', 'x'] ∨
      ([d0, d1] : List Char).take 2 = ['0', 'X'] then ([d0, d1] : List Char).drop 2
      else [d0, d1]) = [d0, d1] := by
    rw [if_neg]
    rintro (h | h) <;> simp only [List.take, List.cons.injEq] at h
    · exact hx1 h.2.1
    · exact hX1 h.2.1
  have htw : List.takeWhile isHexDigitChar [d0, d1] = [d0, d1] := by
    rw [List.takeWhile_cons_of_pos h0, List.takeWhile_cons_of_pos h1, List.takeWhile_nil]
  have hneg : (decide (([d0, d1] : List Char).head? = some '-')) = false := by
    simp [List.head?_cons, hm0]
  simp only [jsParseInt16L, hws, hsign, h0x, htw, hneg]
  rw [if_neg (by simp), if_neg Bool.false_ne_true]
  simp only [List.foldl_cons, List.foldl_nil, hv0, hv1, Option.getD_some]
  congr 1
  push_cast
  ring

theorem exists_six {α : Type} {l : List α} (h : l.length = 6) :
    ∃ a b c d e f : α, l = [a, b, c, d, e, f] := by
  rcases l with _ | ⟨a, _ | ⟨b, _ | ⟨c, _ | ⟨d, _ | ⟨e, _ | ⟨f, _ | ⟨x, t⟩⟩⟩⟩⟩⟩⟩ <;>
    simp_all

theorem toHex2_toList_length : ∀ k : Fin 256, ((toHex2 (k.val : ℤ)).toList).length = 2 := by
  decide

theorem toHex2_toList_hex :
    ∀ k : Fin 256, ((toHex2 (k.val : ℤ)).toList).all isHexDigitChar = true := by
  decide

theorem jsParseInt16L_toHex2 :
    ∀ k : Fin 256, jsParseInt16L ((toHex2 (k.val : ℤ)).toList) = some (k.val : ℤ) := by
  decide

/-- Parsing the printed `#rrggbb` string recovers the exact byte values. -/
theorem hexToRgb_parse_print (r g b : ℕ) (hr : r ≤ 255) (hg : g ≤ 255) (hb : b ≤ 255) :
    hexToRgb ("#" ++ toHex2 (r : ℤ) ++ toHex2 (g : ℤ) ++ toHex2 (b : ℤ)) =
      .ok (some (r : ℤ), some (g : ℤ), some (b : ℤ)) := by
  have hlenA : ((toHex2 (r : ℤ)).toList).length = 2 := toHex2_toList_length ⟨r, by omega⟩
  have hlenB : ((toHex2 (g : ℤ)).toList).length = 2 := toHex2_toList_length ⟨g, by omega⟩
  have hlenC : ((toHex2 (b : ℤ)).toList).length = 2 := toHex2_toList_length ⟨b, by omega⟩
  have hhexA : ∀ c ∈ (toHex2 (r : ℤ)).toList, isHexDigitChar c = true :=
    fun c hc => List.all_eq_true.mp (toHex2_toList_hex ⟨r, by omega⟩) c hc
  have hhexB : ∀ c ∈ (toHex2 (g : ℤ)).toList, isHexDigitChar c = true :=
    fun c hc => List.all_eq_true.mp (toHex2_toList_hex ⟨g, by omega⟩) c hc
  have hhexC : ∀ c ∈ (toHex2 (b : ℤ)).toList, isHexDigitChar c = true :=
    fun c hc => List.all_eq_true.mp (toHex2_toList_hex ⟨b, by omega⟩) c hc
  have hparseA : jsParseInt16L (toHex2 (r : ℤ)).toList = some (r : ℤ) :=
    jsParseInt16L_toHex2 ⟨r, by omega⟩
  have hparseB : jsParseInt16L (toHex2 (g : ℤ)).toList = some (g : ℤ) :=
    jsParseInt16L_toHex2 ⟨g, by omega⟩
  have hparseC : jsParseInt16L (toHex2 (b : ℤ)).toList = some (b : ℤ) :=
    jsParseInt16L_toHex2 ⟨b, by omega⟩
  obtain ⟨a0, a1, hA⟩ := List.length_eq_two.mp hlenA
  obtain ⟨b0, b1, hB⟩ := List.length_eq_two.mp hlenB
  obtain ⟨c0, c1, hC⟩ := List.length_eq_two.mp hlenC
  have hdata : ("#" ++ toHex2 (r : ℤ) ++ toHex2 (g : ℤ) ++ toHex2 (b : ℤ)).toList =
      '#' :: (a0 :: a1 :: b0 :: b1 :: c0 :: c1 :: []) := by
    show ("#" ++ toHex2 (r : ℤ) ++ toHex2 (g : ℤ) ++ toHex2 (b : ℤ)).data = _
    simp only [String.data_append]
    rw [show (toHex2 (r : ℤ)).data = [a0, a1] from hA,
      show (toHex2 (g : ℤ)).data = [b0, b1] from hB,
      show (toHex2 (b : ℤ)).data = [c0, c1] from hC]
    rfl
  have hclean : cleanOf ("#" ++ toHex2 (r : ℤ) ++ toHex2 (g : ℤ) ++ toHex2 (b : ℤ)) =
      a0 :: a1 :: b0 :: b1 :: c0 :: c1 :: [] := by
    unfold cleanOf
    rw [hdata]
    rw [if_pos (by rw [List.head?_cons]), List.tail_cons]
    refine jsTrimL_eq_self ?_
    intro c hc
    rcases List.mem_cons.mp hc with rfl | hc
    · exact isHexDigitChar_not_ws (hhexA c (by rw [hA]; exact List.mem_cons_self _ _))
    rcases List.mem_cons.mp hc with rfl | hc
    · exact isHexDigitChar_not_ws (hhexA c (by rw [hA]; simp))
    rcases List.mem_cons.mp hc with rfl | hc
    · exact isHexDigitChar_not_ws (hhexB c (by rw [hB]; exact List.mem_cons_self _ _))
    rcases List.mem_cons.mp hc with rfl | hc
    · exact isHexDigitChar_not_ws (hhexB c (by rw [hB]; simp))
    rcases List.mem_cons.mp hc with rfl | hc
    · exact isHexDigitChar_not_ws (hhexC c (by rw [hC]; exact List.mem_cons_self _ _))
    rcases List.mem_cons.mp hc with rfl | hc
    · exact isHexDigitChar_not_ws (hhexC c (by rw [hC]; simp))
    · exact absurd hc (List.not_mem_nil c)
  unfold hexToRgb
  rw [hclean]
  rw [if_neg (by simp)]
  have htakeA : (a0 :: a1 :: b0 :: b1 :: c0 :: c1 :: []).take 2 = [a0, a1] := rfl
  have htakeB : ((a0 :: a1 :: b0 :: b1 :: c0 :: c1 :: []).drop 2).take 2 = [b0, b1] := rfl
  have htakeC : ((a0 :: a1 :: b0 :: b1 :: c0 :: c1 :: []).drop 4).take 2 = [c0, c1] := rfl
  rw [htakeA, htakeB, htakeC, ← hA, ← hB, ← hC, hparseA, hparseB, hparseC]

/-- The printed round-trip string is `#` followed by the three original
channel bytes in hex. -/
theorem roundTripHex_eq (r g b : ℕ) (hr : r ≤ 255) (hg : g ≤ 255) (hb : b ≤ 255) :
    roundTripHex (r : ℚ) (g : ℚ) (b : ℚ) =
      "#" ++ toHex2 (r : ℤ) ++ toHex2 (g : ℤ) ++ toHex2 (b : ℤ) := by
  have h := roundTripChannels_exact r g b hr hg hb
  unfold roundTripChannels at h
  unfold roundTripHex hslToHex
  rw [h]

/-! ### Claim C3 -/

/-- Claim C3: for every valid 6-hex-digit color string, the composition
`hslToHex ∘ rgbToHsl ∘ hexToRgb` yields a hex string whose three channels
each differ from the input's channels by at most 1.  (In exact rational
arithmetic the round trip is in fact exact, so the bound 1 holds.) -/
theorem hex_roundtrip_within_one (s : String)
    (h6 : (cleanOf s).length = 6) (hhex : (cleanOf s).all isHexDigitChar = true) :
    ∃ r g b : ℕ, r ≤ 255 ∧ g ≤ 255 ∧ b ≤ 255 ∧
      hexToRgb s = .ok (some (r : ℤ), some (g : ℤ), some (b : ℤ)) ∧
      ∃ r2 g2 b2 : ℤ,
        hexToRgb (roundTripHex (r : ℚ) (g : ℚ) (b : ℚ)) = .ok (some r2, some g2, some b2) ∧
        (r2 - (r : ℤ)).natAbs ≤ 1 ∧ (g2 - (g : ℤ)).natAbs ≤ 1 ∧
        (b2 - (b : ℤ)).natAbs ≤ 1 := by
  obtain ⟨c0, c1, c2, c3, c4, c5, hcl⟩ := exists_six h6
  rw [hcl] at hhex
  simp only [List.all_cons, List.all_nil, Bool.and_eq_true, Bool.and_true] at hhex
  obtain ⟨h0, h1, h2, h3, h4, h5⟩ := hhex
  obtain ⟨n0, hn0le, hp0⟩ := jsParseInt16L_pair h0 h1
  obtain ⟨n1, hn1le, hp1⟩ := jsParseInt16L_pair h2 h3
  obtain ⟨n2, hn2le, hp2⟩ := jsParseInt16L_pair h4 h5
  have hs : hexToRgb s = .ok (some (n0 : ℤ), some (n1 : ℤ), some (n2 : ℤ)) := by
    unfold hexToRgb
    rw [hcl]
    rw [if_neg (by simp)]
    have t1 : ([c0, c1, c2, c3, c4, c5] : List Char).take 2 = [c0, c1] := rfl
    have t2 : (([c0, c1, c2, c3, c4, c5] : List Char).drop 2).take 2 = [c2, c3] := rfl
    have t3 : (([c0, c1, c2, c3, c4, c5] : List Char).drop 4).take 2 = [c4, c5] := rfl
    rw [t1, t2, t3, hp0, hp1, hp2]
  refine ⟨n0, n1, n2, hn0le, hn1le, hn2le, hs,
    (n0 : ℤ), (n1 : ℤ), (n2 : ℤ), ?_, by simp, by simp, by simp⟩
  rw [roundTripHex_eq n0 n1 n2 hn0le hn1le hn2le]
  exact hexToRgb_parse_print n0 n1 n2 hn0le hn1le hn2le

theorem hex_roundtrip_within_one_witness :
    ∃ r g b : ℕ, r ≤ 255 ∧ g ≤ 255 ∧ b ≤ 255 ∧
      PaletteScript.hexToRgb "#3a3b23" = .ok (some (r : ℤ), some (g : ℤ), some (b : ℤ)) ∧
      ∃ r2 g2 b2 : ℤ,
        PaletteScript.hexToRgb (PaletteScript.roundTripHex (r : ℚ) (g : ℚ) (b : ℚ)) =
          .ok (some r2, some g2, some b2) ∧
        (r2 - (r : ℤ)).natAbs ≤ 1 ∧ (g2 - (g : ℤ)).natAbs ≤ 1 ∧
        (b2 - (b : ℤ)).natAbs ≤ 1 :=
  hex_roundtrip_within_one "#3a3b23" (by decide) (by decide)

/-! ### Claim C8 -/

theorem sector_component_cases (hh c x : ℚ) :
    ((sector hh c x).1 = 0 ∨ (sector hh c x).1 = x ∨ (sector hh c x).1 = c) ∧
      ((sector hh c x).2.1 = 0 ∨ (sector hh c x).2.1 = x ∨ (sector hh c x).2.1 = c) ∧
      ((sector hh c x).2.2 = 0 ∨ (sector hh c x).2.2 = x ∨ (sector hh c x).2.2 = c) := by
  unfold sector
  split_ifs <;> simp

theorem channel_bound {c x m v : ℚ} (hv : v = 0 ∨ v = x ∨ v = c)
    (hc0 : 0 ≤ c) (hx0 : 0 ≤ x) (hxc : x ≤ c) (hm : 0 ≤ m) (hcm : c + m ≤ 1) :
    0 ≤ jsRound ((v + m) * 255) ∧ jsRound ((v + m) * 255) ≤ 255 := by
  have h0 : 0 ≤ v + m := by rcases hv with rfl | rfl | rfl <;> linarith
  have h1 : v + m ≤ 1 := by rcases hv with rfl | rfl | rfl <;> linarith
  exact ⟨jsRound_nonneg (by nlinarith), jsRound_le_255 (by nlinarith)⟩

theorem toHex2_length_of_fin : ∀ k : Fin 256, (toHex2 (k.val : ℤ)).length = 2 := by
  decide

theorem toHex2_length {n : ℤ} (h0 : 0 ≤ n) (h1 : n ≤ 255) : (toHex2 n).length = 2 := by
  have hk := toHex2_length_of_fin ⟨n.toNat, by omega⟩
  simpa [Int.toNat_of_nonneg h0] using hk

/-- Claim C8: for valid HSL input (`0 ≤ h < 360`, `s, l ∈ [0, 100]`) each of
the three channel values computed inside `hslToHex` — after adding `m` and
rounding — lies in `[0, 255]` with no explicit clamp, and the returned
string is `#` followed by three zero-padded 2-character hex fields. -/
theorem hsl_channel_bounds (h s l : ℚ) (hh0 : 0 ≤ h) (_hh1 : h < 360)
    (hs0 : 0 ≤ s) (hs1 : s ≤ 100) (hl0 : 0 ≤ l) (hl1 : l ≤ 100) :
    (0 ≤ (hslChannels h s l).1 ∧ (hslChannels h s l).1 ≤ 255) ∧
      (0 ≤ (hslChannels h s l).2.1 ∧ (hslChannels h s l).2.1 ≤ 255) ∧
      (0 ≤ (hslChannels h s l).2.2 ∧ (hslChannels h s l).2.2 ≤ 255) ∧
      hslToHex h s l = "#" ++ toHex2 (hslChannels h s l).1 ++
        toHex2 (hslChannels h s l).2.1 ++ toHex2 (hslChannels h s l).2.2 ∧
      (toHex2 (hslChannels h s l).1).length = 2 ∧
      (toHex2 (hslChannels h s l).2.1).length = 2 ∧
      (toHex2 (hslChannels h s l).2.2).length = 2 := by
  have hch : hslChannels h s l =
      (jsRound (((sector (h / 60) ((1 - |2 * (l / 100) - 1|) * (s / 100))
          ((1 - |2 * (l / 100) - 1|) * (s / 100) * (1 - |jsMod (h / 60) 2 - 1|))).1 +
          (l / 100 - (1 - |2 * (l / 100) - 1|) * (s / 100) / 2)) * 255),
       jsRound (((sector (h / 60) ((1 - |2 * (l / 100) - 1|) * (s / 100))
          ((1 - |2 * (l / 100) - 1|) * (s / 100) * (1 - |jsMod (h / 60) 2 - 1|))).2.1 +
          (l / 100 - (1 - |2 * (l / 100) - 1|) * (s / 100) / 2)) * 255),
       jsRound (((sector (h / 60) ((1 - |2 * (l / 100) - 1|) * (s / 100))
          ((1 - |2 * (l / 100) - 1|) * (s / 100) * (1 - |jsMod (h / 60) 2 - 1|))).2.2 +
          (l / 100 - (1 - |2 * (l / 100) - 1|) * (s / 100) / 2)) * 255)) := rfl
  have hl' : (0 : ℚ) ≤ l / 100 ∧ l / 100 ≤ 1 := ⟨by positivity, by linarith⟩
  have hs' : (0 : ℚ) ≤ s / 100 ∧ s / 100 ≤ 1 := ⟨by positivity, by linarith⟩
  have habs : |2 * (l / 100) - 1| ≤ 1 := abs_le.mpr ⟨by linarith [hl'.1], by linarith [hl'.2]⟩
  have hc0 : (0 : ℚ) ≤ (1 - |2 * (l / 100) - 1|) * (s / 100) :=
    mul_nonneg (by linarith) hs'.1
  have hcle : (1 - |2 * (l / 100) - 1|) * (s / 100) ≤ 1 - |2 * (l / 100) - 1| :=
    mul_le_of_le_one_right (by linarith) hs'.2
  have hc2l : (1 - |2 * (l / 100) - 1|) * (s / 100) ≤ 2 * (l / 100) := by
    have := neg_abs_le (2 * (l / 100) - 1)
    linarith
  have hc2l' : (1 - |2 * (l / 100) - 1|) * (s / 100) ≤ 2 * (1 - l / 100) := by
    have := le_abs_self (2 * (l / 100) - 1)
    linarith
  have hm0 : (0 : ℚ) ≤ l / 100 - (1 - |2 * (l / 100) - 1|) * (s / 100) / 2 := by linarith
  have hcm : (1 - |2 * (l / 100) - 1|) * (s / 100) +
      (l / 100 - (1 - |2 * (l / 100) - 1|) * (s / 100) / 2) ≤ 1 := by linarith
  have hmod := jsMod_two_mem (a := h / 60) (by positivity)
  have hmabs : |jsMod (h / 60) 2 - 1| ≤ 1 := abs_le.mpr ⟨by linarith [hmod.1], by linarith [hmod.2]⟩
  have hx0 : (0 : ℚ) ≤ (1 - |2 * (l / 100) - 1|) * (s / 100) * (1 - |jsMod (h / 60) 2 - 1|) :=
    mul_nonneg hc0 (by linarith)
  have hxc : (1 - |2 * (l / 100) - 1|) * (s / 100) * (1 - |jsMod (h / 60) 2 - 1|) ≤
      (1 - |2 * (l / 100) - 1|) * (s / 100) :=
    mul_le_of_le_one_right hc0 (by linarith [abs_nonneg (jsMod (h / 60) 2 - 1)])
  obtain ⟨hv1, hv2, hv3⟩ := sector_component_cases (h / 60)
    ((1 - |2 * (l / 100) - 1|) * (s / 100))
    ((1 - |2 * (l / 100) - 1|) * (s / 100) * (1 - |jsMod (h / 60) 2 - 1|))
  rw [hch]
  have hb1 := channel_bound hv1 hc0 hx0 hxc hm0 hcm
  have hb2 := channel_bound hv2 hc0 hx0 hxc hm0 hcm
  have hb3 := channel_bound hv3 hc0 hx0 hxc hm0 hcm
  exact ⟨hb1, hb2, hb3, rfl, toHex2_length hb1.1 hb1.2, toHex2_length hb2.1 hb2.2,
    toHex2_length hb3.1 hb3.2⟩

theorem hsl_channel_bounds_witness :
    (0 ≤ (PaletteScript.hslChannels 48 50 40).1 ∧
        (PaletteScript.hslChannels 48 50 40).1 ≤ 255) ∧
      (0 ≤ (PaletteScript.hslChannels 48 50 40).2.1 ∧
        (PaletteScript.hslChannels 48 50 40).2.1 ≤ 255) ∧
      (0 ≤ (PaletteScript.hslChannels 48 50 40).2.2 ∧
        (PaletteScript.hslChannels 48 50 40).2.2 ≤ 255) ∧
      PaletteScript.hslToHex 48 50 40 = "#" ++
        PaletteScript.toHex2 (PaletteScript.hslChannels 48 50 40).1 ++
        PaletteScript.toHex2 (PaletteScript.hslChannels 48 50 40).2.1 ++
        PaletteScript.toHex2 (PaletteScript.hslChannels 48 50 40).2.2 ∧
      (PaletteScript.toHex2 (PaletteScript.hslChannels 48 50 40).1).length = 2 ∧
      (PaletteScript.toHex2 (PaletteScript.hslChannels 48 50 40).2.1).length = 2 ∧
      (PaletteScript.toHex2 (PaletteScript.hslChannels 48 50 40).2.2).length = 2 :=
  hsl_channel_bounds 48 50 40 (by norm_num) (by norm_num) (by norm_num) (by norm_num)
    (by norm_num) (by norm_num)

/-! ### Claim C10 -/

/-- Claim C10: at `h = 360` the quotient `hh = 6` falls in no sector branch,
so the chroma contribution is dropped and `hslToHex(360, s, l)` is
achromatic — all three channels equal `round((l/100 - c/2) * 255)` — rather
than the red-sector color: `h = 360` is not treated as `h = 0`. -/
theorem h360_achromatic :
    (∀ s l : ℚ, 0 < s → s ≤ 100 → 0 < l → l < 100 →
      ∃ k : ℤ, hslChannels 360 s l = (k, k, k) ∧
        k = jsRound ((l / 100 - (1 - |2 * (l / 100) - 1|) * (s / 100) / 2) * 255)) ∧
      hslToHex 360 100 50 ≠ hslToHex 0 100 50 := by
  constructor
  · intro s l _ _ _ _
    refine ⟨jsRound ((l / 100 - (1 - |2 * (l / 100) - 1|) * (s / 100) / 2) * 255), ?_, rfl⟩
    have hch : hslChannels 360 s l =
        (jsRound (((sector ((360 : ℚ) / 60) ((1 - |2 * (l / 100) - 1|) * (s / 100))
            ((1 - |2 * (l / 100) - 1|) * (s / 100) * (1 - |jsMod ((360 : ℚ) / 60) 2 - 1|))).1 +
            (l / 100 - (1 - |2 * (l / 100) - 1|) * (s / 100) / 2)) * 255),
         jsRound (((sector ((360 : ℚ) / 60) ((1 - |2 * (l / 100) - 1|) * (s / 100))
            ((1 - |2 * (l / 100) - 1|) * (s / 100) * (1 - |jsMod ((360 : ℚ) / 60) 2 - 1|))).2.1 +
            (l / 100 - (1 - |2 * (l / 100) - 1|) * (s / 100) / 2)) * 255),
         jsRound (((sector ((360 : ℚ) / 60) ((1 - |2 * (l / 100) - 1|) * (s / 100))
            ((1 - |2 * (l / 100) - 1|) * (s / 100) * (1 - |jsMod ((360 : ℚ) / 60) 2 - 1|))).2.2 +
            (l / 100 - (1 - |2 * (l / 100) - 1|) * (s / 100) / 2)) * 255)) := rfl
    rw [hch, sector_eq6 _ _ (by norm_num)]
    norm_num
  · with_unfolding_all decide

theorem h360_achromatic_witness :
    ∃ k : ℤ, PaletteScript.hslChannels 360 100 50 = (k, k, k) ∧
      k = PaletteScript.jsRound ((50 / 100 -
        (1 - |2 * ((50 : ℚ) / 100) - 1|) * (100 / 100) / 2) * 255) :=
  h360_achromatic.1 100 50 (by norm_num) (by norm_num) (by norm_num) (by norm_num)

/-! ### Claim C9 -/

/-- Claim C9: when the mount container is absent (`getElementById` returns
null), the build is a benign no-op: it returns without error, builds no
tile, and leaves the document state unchanged. -/
theorem render_absent_mount_noop : ∀ r : ℕ, renderDoc none r = none :=
  fun _ => rfl

end PaletteScript
